import Mathlib

/-!
# Verification of the swyfts batch image-resize pipeline

Shallow embedding of `src/src-tauri/src/lib.rs`: the `resize_image` worker
routine and the `process_images` batch coordinator, together with the
filesystem state they read and write.

Modelling decisions, each noted again at the definition it concerns:

* A filesystem path is its list of components; the filesystem is an
  association list from paths to nodes (regular file with bytes, or
  directory).
* The external crates (`infer`'s content sniffing, the `image` crate's
  decoder, Lanczos3 resampler and encoder) are opaque to the repository's
  logic, so they enter the model as an `Env` of abstract functions; the
  embedded code is parametric in them exactly as the Rust code is generic
  over whatever those crates do to the bytes.
* Rust `f64` arithmetic in the dimension computation is modelled
  faithfully to IEEE-754 binary64: every intermediate is the nearest
  double of its exact rational value, i.e. rounded to nearest-even at 53
  significant bits (`fl`), which is exact IEEE semantics for the normal
  finite range in which all the planner's values lie; `f64::round` on the
  nonnegative values that occur is round-half-away-from-zero, i.e.
  `⌊x + 1/2⌋`, and the `as u32` cast saturates at `2^32 - 1` as Rust
  defines float-to-int casts.  The one idealization left: division by a
  zero original dimension (impossible for a decoded image) would give an
  IEEE infinity where the rational model gives 0, so the aspect-branch
  theorems assume positive original dimensions.
* The concurrent fan-out of `process_images` (one `spawn` per eligible
  file, a join barrier, a mutex-guarded result vector) is modelled as its
  sequential linearization in enumeration order: two distinct directory
  entries have distinct file names, so two workers never touch the same
  source or destination path and every interleaving produces the same
  final filesystem and the same per-entry outcomes.
* Wall-clock timestamps and the `processing_time` field are outside the
  model: no claim depends on them.
-/

set_option autoImplicit false

namespace Swyfts

/-- A filesystem path, as its list of name components. -/
abbrev Path := List String

/-- The byte content of a regular file. -/
abbrev Bytes := List Nat

/-- A filesystem node: a regular file with its bytes, or a directory. -/
inductive Node where
  | file (bytes : Bytes)
  | dir
deriving DecidableEq, Repr

/-- The filesystem: an association list from paths to nodes.  The first
binding for a path wins, and writing replaces any previous binding. -/
structure FS where
  entries : List (Path × Node)
deriving DecidableEq, Repr

/-- First-match lookup in the association list. -/
def lookupNode : List (Path × Node) → Path → Option Node
  | [], _ => none
  | (q, n) :: rest, p => if q = p then some n else lookupNode rest p

/-- The node stored at `p`, if any. -/
def FS.lookup (fs : FS) (p : Path) : Option Node :=
  lookupNode fs.entries p

/-- Rust `Path::exists`: true for files and directories alike. -/
def FS.pathExists (fs : FS) (p : Path) : Bool :=
  (fs.lookup p).isSome

/-- Whether `p` is a directory of the filesystem. -/
def FS.isDir (fs : FS) (p : Path) : Bool :=
  fs.lookup p = some Node.dir

/-- Write file bytes at `p`, replacing any previous binding of `p`. -/
def FS.write (fs : FS) (p : Path) (b : Bytes) : FS :=
  ⟨(p, Node.file b) :: fs.entries.filter (fun e => decide (e.1 ≠ p))⟩

/-- `p` is a direct child of directory `d` (one extra final component). -/
def childOf (d p : Path) : Bool :=
  decide (p ≠ [] ∧ p.dropLast = d)

/-- The direct children of `d`, in the association list's order: the model
of the enumeration order of `fs::read_dir`. -/
def FS.children (fs : FS) (d : Path) : List Path :=
  (fs.entries.map Prod.fst).filter (childOf d)

/-- Rust `Path::file_name` on a directory entry (always present there). -/
def fileName (p : Path) : String :=
  p.getLastD ""

/-- A path rendered for error messages, as Rust's `Path::display`. -/
def pathString (p : Path) : String :=
  String.intercalate "/" p

/-- ASCII lowercase of a string, the fragment of Rust `str::to_lowercase`
exercised by file extensions. -/
def lowerString (s : String) : String :=
  ⟨s.data.map Char.toLower⟩

/-- Split a character list at every dot. -/
def splitDots : List Char → List (List Char)
  | [] => [[]]
  | c :: cs =>
    let r := splitDots cs
    if c = '.' then [] :: r
    else
      match r with
      | [] => [[c]]
      | g :: gs => (c :: g) :: gs

/-- Rust `Path::extension` on a file name: `none` when the name has no dot,
or when the only dot is the leading one of a hidden file; otherwise the part
after the final dot. -/
def rustExtension (name : String) : Option String :=
  match (splitDots name.data).reverse with
  | [] => none
  | [_] => none
  | ext :: rest => if rest = [[]] then none else some ⟨ext⟩

/-- `path.extension().and_then(|e| e.to_str()).unwrap_or("").to_lowercase()`
(lib.rs lines 98-102). -/
def extLower (name : String) : String :=
  lowerString ((rustExtension name).getD "")

/-- The deserialized request (lib.rs lines 13-21).  `width` and `height`
are Rust `Option<u32>`, modelled as `Option Nat`. -/
structure ResizeOptions where
  input_folder : Path
  output_folder : Path
  width : Option Nat
  height : Option Nat
  keep_aspect_ratio : Bool
  overwrite : Bool
deriving DecidableEq, Repr

/-- A decoded image: its dimensions and an abstract pixel payload. -/
structure Image where
  width : Nat
  height : Nat
  pixels : Bytes
deriving DecidableEq, Repr

/-- The external crates the pipeline calls, as abstract functions:
`sniff` is `infer`'s content-signature classification of file bytes (the
detected MIME type, or `none` when no signature matches), `decode` is
`image::open`'s decoder, `resize` is the Lanczos3 resampler
`DynamicImage::resize`, and `encode` picks the encoder from the
destination extension as `DynamicImage::save` does (`none` when encoding
fails). -/
structure Env where
  sniff : Bytes → Option String
  decode : Bytes → Option Image
  resize : Image → Nat → Nat → Image
  encode : Image → String → Option Bytes

/-- One observable I/O effect of a worker, in program order. -/
inductive Effect where
  | sniffed (p : Path)
  | decoded (p : Path)
  | wrote (p : Path)
deriving DecidableEq, Repr

/-- The MIME allow-list of `resize_image` (lib.rs line 33). -/
def allowed_mimes : List String :=
  ["image/png", "image/jpeg", "image/gif", "image/webp"]

/-- The extension allow-list of `process_images` (lib.rs line 88).  The
`"PNG"` entry is kept from the source verbatim; it is dead, since the
extension is lowercased before the membership test. -/
def valid_formats : List String :=
  ["jpg", "jpeg", "png", "gif", "webp", "PNG"]

/-- `u32::MAX`. -/
def u32Max : Nat := 4294967295

/-- `f64::round` on a nonnegative value: round half away from zero. -/
def roundHalfUp (x : ℚ) : ℤ :=
  ⌊x + 1 / 2⌋

/-- Rust `as u32` applied to a nonnegative rounded float: saturating. -/
def toU32 (z : ℤ) : Nat :=
  min z.toNat u32Max

/-- Round a rational to the nearest integer, ties to even: the IEEE-754
default rounding direction applied by every `f64` operation. -/
def roundEven (x : ℚ) : ℤ :=
  if x - ⌊x⌋ < 1 / 2 then ⌊x⌋
  else if 1 / 2 < x - ⌊x⌋ then ⌊x⌋ + 1
  else if ⌊x⌋ % 2 = 0 then ⌊x⌋ else ⌊x⌋ + 1

/-- The binary64 (`f64`) value nearest to a rational: round to
nearest-even at 53 significant bits.  This is exact IEEE-754 semantics
for every nonzero value the planner computes, since quotients of nonzero
`u32`s and their products with `u32`s all lie in the normal finite range
(between `2^-32` and `2^64`): no overflow, no subnormals. -/
def fl (x : ℚ) : ℚ :=
  if x = 0 then 0
  else (roundEven (x * 2 ^ (52 - Int.log 2 x)) : ℚ) * 2 ^ (Int.log 2 x - 52)

/-- `a as f64 / c as f64 * b as f64` under IEEE-754 semantics: the
`u32 → f64` conversions are exact (`u32 < 2^53`), and the division and
the multiplication each return the correctly rounded (nearest-even)
double of their exact result.  For `c = 0` (impossible for a decoded
image) IEEE would give an infinity where this model gives 0. -/
def f64DivMul (a b c : Nat) : ℚ :=
  fl (fl ((a : ℚ) / (c : ℚ)) * (b : ℚ))

/-- The dimension computation of `resize_image` (lib.rs lines 44-59):
aspect-preserving with a width computes
`(width as f64 / orig_width as f64 * orig_height as f64).round() as u32`
— the `f64` evaluation modelled exactly by `f64DivMul`, the rounding by
`roundHalfUp` and the saturating cast by `toU32` — symmetrically with a
height; with neither it fails; free-form mode defaults each absent
dimension to the original one. -/
def planDimensions (options : ResizeOptions) (origWidth origHeight : Nat) :
    Except String (Nat × Nat) :=
  if options.keep_aspect_ratio then
    match options.width with
    | some w =>
      .ok (w, toU32 (roundHalfUp (f64DivMul w origHeight origWidth)))
    | none =>
      match options.height with
      | some h =>
        .ok (toU32 (roundHalfUp (f64DivMul h origWidth origHeight)), h)
      | none => .error "Width or height required when preserving aspect ratio."
  else
    .ok (options.width.getD origWidth, options.height.getD origHeight)

/-- The decision core of `resize_image` (lib.rs lines 23-77), written over
the three filesystem observations the routine makes: the node at the input
path (read by the sniffer and the decoder), the node at the destination's
parent and the node at the destination itself (consulted by the save).
Returns the I/O effects in program order, the bytes to write on success,
and the result.  Error strings follow the source's `format!` patterns,
with the wrapped I/O or codec message abstracted to the offending path. -/
def resizeStep (env : Env) (options : ResizeOptions) (input_path output_path : Path)
    (inputNode parentNode outNode : Option Node) :
    List Effect × Option Bytes × Except String Unit :=
  match inputNode with
  | none =>
    ([.sniffed input_path], none,
      .error ("Error reading file: " ++ pathString input_path))
  | some Node.dir =>
    ([.sniffed input_path], none,
      .error ("Error reading file: " ++ pathString input_path))
  | some (Node.file bytes) =>
    match env.sniff bytes with
    | none =>
      ([.sniffed input_path], none,
        .error ("Could not determine file type for " ++ pathString input_path))
    | some mime =>
      if allowed_mimes.contains mime = false then
        ([.sniffed input_path], none,
          .error ("Unsupported format: " ++ pathString input_path
            ++ " (detected as " ++ mime ++ ")"))
      else
        match env.decode bytes with
        | none =>
          ([.sniffed input_path, .decoded input_path], none,
            .error ("Error opening image: " ++ pathString input_path))
        | some img =>
          match planDimensions options img.width img.height with
          | .error e => ([.sniffed input_path, .decoded input_path], none, .error e)
          | .ok (w, h) =>
            if parentNode = some Node.dir ∧ outNode ≠ some Node.dir then
              match env.encode (env.resize img w h) (extLower (fileName output_path)) with
              | some out =>
                ([.sniffed input_path, .decoded input_path, .wrote output_path],
                  some out, .ok ())
              | none =>
                ([.sniffed input_path, .decoded input_path], none,
                  .error ("Error saving image: " ++ pathString output_path))
            else
              ([.sniffed input_path, .decoded input_path], none,
                .error ("Error saving image: " ++ pathString output_path))

/-- `resize_image` (lib.rs lines 23-77): sniff the input's content type,
reject non-image MIME types, decode, plan dimensions, resize and save.
Returns the effect trace, the filesystem after the call, and the result. -/
def resize_image (env : Env) (fs : FS) (input_path output_path : Path)
    (options : ResizeOptions) : List Effect × FS × Except String Unit :=
  match resizeStep env options input_path output_path
      (fs.lookup input_path) (fs.lookup output_path.dropLast) (fs.lookup output_path) with
  | (tr, some b, r) => (tr, fs.write output_path b, r)
  | (tr, none, r) => (tr, fs, r)

/-- A per-file outcome object of the report (the JSON built at lib.rs
lines 116-122 and 146-151); `output_file` is absent for entries that fail
the extension filter. -/
structure Outcome where
  file : Path
  output_file : Option Path
  status : String
  message : String
deriving DecidableEq, Repr

/-- The JSON object a worker initializes (lib.rs lines 116-122), with the
`"unknown"` status placeholder. -/
def initialResult (path output_path : Path) : Outcome :=
  { file := path, output_file := some output_path, status := "unknown", message := "" }

/-- The destination path of a task: the output folder joined with the
source file's name (lib.rs line 111). -/
def destPath (options : ResizeOptions) (path : Path) : Path :=
  options.output_folder ++ [fileName path]

/-- The worker's result after the skip branch (lib.rs lines 124-127). -/
def skippedOutcome (path output_path : Path) : Outcome :=
  { initialResult path output_path with
    status := "skipped", message := "File already exists, skipping." }

/-- The worker's result after a successful resize (lib.rs lines 129-132). -/
def successOutcome (path output_path : Path) : Outcome :=
  { initialResult path output_path with
    status := "success", message := "Image resized successfully." }

/-- The worker's result after a failed resize (lib.rs lines 133-136). -/
def errorOutcome (path output_path : Path) (e : String) : Outcome :=
  { initialResult path output_path with status := "error", message := e }

/-- The body of one spawned worker (lib.rs lines 109-141): skip when the
destination exists and overwrite is off, otherwise call `resize_image`
and record its result. -/
def runWorker (env : Env) (options : ResizeOptions) (fs : FS) (path : Path) :
    List Effect × FS × Outcome :=
  let output_path := destPath options path
  if fs.pathExists output_path && !options.overwrite then
    ([], fs, skippedOutcome path output_path)
  else
    match resize_image env fs path output_path options with
    | (tr, fs2, .ok _) => (tr, fs2, successOutcome path output_path)
    | (tr, fs2, .error e) => (tr, fs2, errorOutcome path output_path e)

/-- The outcome recorded for an entry that fails the extension allow-list
(lib.rs lines 145-153). -/
def unsupportedOutcome (path : Path) : Outcome :=
  { file := path, output_file := none, status := "unsupported_format",
    message := "Unsupported file format." }

/-- Whether a directory entry passes the extension allow-list
(lib.rs lines 98-108). -/
def isEligible (path : Path) : Bool :=
  valid_formats.contains (extLower (fileName path))

/-- The loop body of `process_images` for one directory entry
(lib.rs lines 96-154). -/
def processEntry (env : Env) (options : ResizeOptions) (fs : FS) (path : Path) :
    List Effect × FS × Outcome :=
  if isEligible path then runWorker env options fs path
  else ([], fs, unsupportedOutcome path)

/-- All directory entries in order: the sequential linearization of the
concurrent fan-out (each worker reads and writes only paths no other
worker touches, see the file comment). -/
def processEntries (env : Env) (options : ResizeOptions) :
    FS → List Path → List Effect × FS × List Outcome
  | fs, [] => ([], fs, [])
  | fs, p :: rest =>
    let step := processEntry env options fs p
    let next := processEntries env options step.2.1 rest
    (step.1 ++ next.1, next.2.1, step.2.2 :: next.2.2)

/-- `fs::read_dir` under the model: the children of an existing directory
in enumeration order; an error when the path is not a directory. -/
def readDir (fs : FS) (d : Path) : Except String (List Path) :=
  match fs.lookup d with
  | some Node.dir => .ok (fs.children d)
  | some (Node.file _) => .error "not a directory"
  | none => .error "no such directory"

/-- The report of a completed batch (the JSON of lib.rs lines 166-170,
without the wall-clock `processing_time`). -/
structure Response where
  output_folder : Path
  results : List Outcome
deriving DecidableEq, Repr

/-- `process_images` (lib.rs lines 80-173): the existence precheck, the
directory enumeration with its extension filter, the fan-out over eligible
entries, and the assembled response.  Returns the combined effect trace,
the filesystem after the batch, and the command's result. -/
def process_images (env : Env) (fs : FS) (options : ResizeOptions) :
    List Effect × FS × Except String Response :=
  if fs.pathExists options.input_folder = false then
    ([], fs,
      .error ("Input folder does not exist: " ++ pathString options.input_folder))
  else
    match readDir fs options.input_folder with
    | .error e => ([], fs, .error ("Error reading directory: " ++ e))
    | .ok entries =>
      let run := processEntries env options fs entries
      (run.1, run.2.1,
        .ok { output_folder := options.output_folder, results := run.2.2 })

/-! ## Concrete fixtures

A small environment and filesystems used to instantiate the theorems on
closed inputs: bytes `[1]` carry a 4x2 PNG image, any other content sniffs
as PDF and does not decode. -/

/-- Fixture environment: `[1]` is a PNG that decodes to a 4x2 image;
everything else sniffs as `application/pdf` and fails to decode. -/
def envA : Env :=
  { sniff := fun b => if b = [1] then some "image/png" else some "application/pdf"
    decode := fun b => if b = [1] then some ⟨4, 2, [9]⟩ else none
    resize := fun img w h => ⟨w, h, img.pixels⟩
    encode := fun img _ => some (img.width :: img.height :: img.pixels) }

/-- Fixture: an input directory holding one PNG and one text file, and an
empty output directory. -/
def fsA : FS :=
  ⟨[(["in"], Node.dir), (["out"], Node.dir),
    (["in", "a.png"], Node.file [1]), (["in", "b.txt"], Node.file [2])]⟩

/-- Fixture: the input directory holds a spoofed `.png` whose content
sniffs as PDF. -/
def fsB : FS :=
  ⟨[(["in"], Node.dir), (["out"], Node.dir), (["in", "a.png"], Node.file [2])]⟩

/-- Fixture: the destination file already exists with content `[7]`. -/
def fsC : FS :=
  ⟨[(["in"], Node.dir), (["out"], Node.dir),
    (["in", "a.png"], Node.file [1]), (["out", "a.png"], Node.file [7])]⟩

/-- Fixture request: free-form resize to width 2, no overwrite. -/
def optsA : ResizeOptions :=
  { input_folder := ["in"], output_folder := ["out"], width := some 2,
    height := none, keep_aspect_ratio := false, overwrite := false }

/-- Fixture request: aspect-preserving with neither dimension given. -/
def optsK : ResizeOptions :=
  { input_folder := ["in"], output_folder := ["out"], width := none,
    height := none, keep_aspect_ratio := true, overwrite := false }

/-- Fixture request: free-form with neither dimension given. -/
def optsF : ResizeOptions :=
  { input_folder := ["in"], output_folder := ["out"], width := none,
    height := none, keep_aspect_ratio := false, overwrite := false }

/-- Structural equality test for `Except`, so that closed runs of the
pipeline can be settled by `decide`. -/
instance {ε α : Type} [DecidableEq ε] [DecidableEq α] : DecidableEq (Except ε α) :=
  fun x y =>
    match x, y with
    | .error e, .error f =>
      if h : e = f then isTrue (by rw [h]) else isFalse (fun hc => h (by injection hc))
    | .ok a, .ok b =>
      if h : a = b then isTrue (by rw [h]) else isFalse (fun hc => h (by injection hc))
    | .error _, .ok _ => isFalse (fun hc => Except.noConfusion hc)
    | .ok _, .error _ => isFalse (fun hc => Except.noConfusion hc)

/-! ## Filesystem lemmas -/

theorem lookupNode_cons (k : Path) (v : Node) (rest : List (Path × Node)) (q : Path) :
    lookupNode ((k, v) :: rest) q = if k = q then some v else lookupNode rest q := rfl

theorem lookupNode_eq_none {l : List (Path × Node)} {q : Path} :
    lookupNode l q = none ↔ ∀ e ∈ l, e.1 ≠ q := by
  induction l with
  | nil => simp [lookupNode]
  | cons e rest ih =>
    obtain ⟨k, v⟩ := e
    rw [lookupNode_cons]
    by_cases h : k = q
    · rw [if_pos h]
      simp only [List.mem_cons]
      constructor
      · intro hc; cases hc
      · intro hall; exact absurd h (hall (k, v) (Or.inl rfl))
    · rw [if_neg h, ih]
      simp only [List.mem_cons]
      constructor
      · rintro hall e (rfl | he)
        · exact h
        · exact hall e he
      · intro hall e he; exact hall e (Or.inr he)

theorem lookupNode_filter_ne (l : List (Path × Node)) (p q : Path) (h : q ≠ p) :
    lookupNode (l.filter (fun e => decide (e.1 ≠ p))) q = lookupNode l q := by
  induction l with
  | nil => rfl
  | cons e rest ih =>
    obtain ⟨k, v⟩ := e
    rw [List.filter_cons]
    by_cases he : k = p
    · rw [if_neg (by simp [he]), ih, lookupNode_cons,
        if_neg (fun hc : k = q => h (hc ▸ he))]
    · rw [if_pos (by simp [he]), lookupNode_cons, lookupNode_cons]
      by_cases hq : k = q
      · rw [if_pos hq, if_pos hq]
      · rw [if_neg hq, if_neg hq, ih]

theorem FS.lookup_write (fs : FS) (p : Path) (b : Bytes) (q : Path) :
    (fs.write p b).lookup q =
      if q = p then some (Node.file b) else fs.lookup q := by
  show lookupNode ((p, Node.file b) :: fs.entries.filter (fun e => decide (e.1 ≠ p))) q = _
  rw [lookupNode_cons]
  by_cases h : q = p
  · rw [if_pos h.symm, if_pos h]
  · rw [if_neg (fun hc => h hc.symm), if_neg h]
    exact lookupNode_filter_ne fs.entries p q h

theorem FS.pathExists_write_of (fs : FS) (p : Path) (b : Bytes) (q : Path)
    (h : fs.pathExists q = true) : (fs.write p b).pathExists q = true := by
  unfold FS.pathExists at *
  rw [FS.lookup_write]
  by_cases hq : q = p <;> simp [hq, h]

theorem FS.children_write (fs : FS) (p : Path) (b : Bytes) (d : Path)
    (hc : childOf d p = false) (he : fs.pathExists p = false) :
    (fs.write p b).children d = fs.children d := by
  have hnone : fs.lookup p = none := by
    unfold FS.pathExists at he
    cases hl : fs.lookup p with
    | none => rfl
    | some n => rw [hl] at he; cases he
  have hid : fs.entries.filter (fun e => decide (e.1 ≠ p)) = fs.entries := by
    apply List.filter_eq_self.mpr
    intro e hel
    have := (lookupNode_eq_none.mp hnone) e hel
    simpa using this
  show List.filter (childOf d)
      (List.map Prod.fst ((p, Node.file b) ::
        fs.entries.filter (fun e => decide (e.1 ≠ p)))) = _
  rw [hid, List.map_cons, List.filter_cons, if_neg (by rw [hc]; simp)]
  rfl

/-! ## Shape lemmas for the worker routine -/

theorem resizeStep_shape (env : Env) (o : ResizeOptions) (ip op : Path)
    (a par out : Option Node) :
    ((resizeStep env o ip op a par out).2.1 = none ∧
        ∃ e, (resizeStep env o ip op a par out).2.2 = Except.error e) ∨
      ∃ b, (resizeStep env o ip op a par out).2.1 = some b ∧
        (resizeStep env o ip op a par out).2.2 = Except.ok () := by
  unfold resizeStep
  repeat' split
  all_goals first
    | exact Or.inl ⟨rfl, _, rfl⟩
    | exact Or.inr ⟨_, rfl, rfl⟩

theorem resize_image_error_fs (env : Env) (o : ResizeOptions) (fs : FS)
    (ip op : Path) (e : String)
    (h : (resize_image env fs ip op o).2.2 = Except.error e) :
    (resize_image env fs ip op o).2.1 = fs := by
  rcases resizeStep_shape env o ip op (fs.lookup ip) (fs.lookup op.dropLast)
      (fs.lookup op) with ⟨hw, e2, he⟩ | ⟨b, hw, hok⟩
  · unfold resize_image at *
    rcases hrs : resizeStep env o ip op (fs.lookup ip) (fs.lookup op.dropLast)
        (fs.lookup op) with ⟨tr, w, r⟩
    rw [hrs] at hw
    simp only at hw
    subst hw
    simp
  · unfold resize_image at h
    rcases hrs : resizeStep env o ip op (fs.lookup ip) (fs.lookup op.dropLast)
        (fs.lookup op) with ⟨tr, w, r⟩
    rw [hrs] at hw hok h
    simp only at hw hok
    subst hw; subst hok
    simp at h

theorem resize_image_ok_fs (env : Env) (o : ResizeOptions) (fs : FS)
    (ip op : Path)
    (h : (resize_image env fs ip op o).2.2 = Except.ok ()) :
    ∃ b, (resize_image env fs ip op o).2.1 = fs.write op b := by
  rcases resizeStep_shape env o ip op (fs.lookup ip) (fs.lookup op.dropLast)
      (fs.lookup op) with ⟨hw, e2, he⟩ | ⟨b, hw, hok⟩
  · unfold resize_image at h
    rcases hrs : resizeStep env o ip op (fs.lookup ip) (fs.lookup op.dropLast)
        (fs.lookup op) with ⟨tr, w, r⟩
    rw [hrs] at hw he h
    simp only at hw
    subst hw
    simp at h
    rw [h] at he
    cases he
  · refine ⟨b, ?_⟩
    unfold resize_image
    rcases hrs : resizeStep env o ip op (fs.lookup ip) (fs.lookup op.dropLast)
        (fs.lookup op) with ⟨tr, w, r⟩
    rw [hrs] at hw
    simp only at hw
    subst hw
    simp

theorem resize_image_fs_shape (env : Env) (o : ResizeOptions) (fs : FS)
    (ip op : Path) :
    (resize_image env fs ip op o).2.1 = fs ∨
      ∃ b, (resize_image env fs ip op o).2.1 = fs.write op b := by
  rcases h : (resize_image env fs ip op o).2.2 with e | u
  · exact Or.inl (resize_image_error_fs env o fs ip op e h)
  · cases u
    exact Or.inr (resize_image_ok_fs env o fs ip op h)

theorem resize_image_congr (env : Env) (o : ResizeOptions) (fsX fsY : FS)
    (ip op : Path)
    (h1 : fsX.lookup ip = fsY.lookup ip)
    (h2 : fsX.lookup op.dropLast = fsY.lookup op.dropLast)
    (h3 : fsX.lookup op = fsY.lookup op) :
    (resize_image env fsX ip op o).1 = (resize_image env fsY ip op o).1 ∧
      (resize_image env fsX ip op o).2.2 = (resize_image env fsY ip op o).2.2 := by
  unfold resize_image
  rw [h1, h2, h3]
  rcases hrs : resizeStep env o ip op (fsY.lookup ip) (fsY.lookup op.dropLast)
      (fsY.lookup op) with ⟨tr, w, r⟩
  cases w <;> simp

theorem FS.pathExists_write_self (fs : FS) (p : Path) (b : Bytes) :
    (fs.write p b).pathExists p = true := by
  unfold FS.pathExists
  rw [FS.lookup_write, if_pos rfl]
  rfl

theorem pathExists_false_lookup (fs : FS) (q : Path)
    (h : fs.pathExists q = false) : fs.lookup q = none := by
  unfold FS.pathExists at h
  cases hl : fs.lookup q with
  | none => rfl
  | some n => rw [hl] at h; cases h

theorem destPath_ne_output_folder (o : ResizeOptions) (p : Path) :
    destPath o p ≠ o.output_folder := by
  intro h
  have := congrArg List.length h
  simp [destPath] at this

/-! ## Worker equations -/

theorem runWorker_skip (env : Env) (o : ResizeOptions) (fs : FS) (p : Path)
    (hex : fs.pathExists (destPath o p) = true) (how : o.overwrite = false) :
    runWorker env o fs p = ([], fs, skippedOutcome p (destPath o p)) := by
  simp [runWorker, hex, how]

theorem runWorker_go_ok (env : Env) (o : ResizeOptions) (fs : FS) (p : Path)
    (hex : fs.pathExists (destPath o p) = false)
    (hok : (resize_image env fs p (destPath o p) o).2.2 = Except.ok ()) :
    runWorker env o fs p =
      ((resize_image env fs p (destPath o p) o).1,
        (resize_image env fs p (destPath o p) o).2.1,
        successOutcome p (destPath o p)) := by
  simp only [runWorker, hex, Bool.false_and, Bool.false_eq_true, if_false]
  rcases hr : resize_image env fs p (destPath o p) o with ⟨tr, fs2, r⟩
  rw [hr] at hok
  simp only at hok
  subst hok
  rfl

theorem runWorker_go_err (env : Env) (o : ResizeOptions) (fs : FS) (p : Path)
    (e : String) (hex : fs.pathExists (destPath o p) = false)
    (herr : (resize_image env fs p (destPath o p) o).2.2 = Except.error e) :
    runWorker env o fs p =
      ((resize_image env fs p (destPath o p) o).1, fs,
        errorOutcome p (destPath o p) e) := by
  have hfs := resize_image_error_fs env o fs p (destPath o p) e herr
  simp only [runWorker, hex, Bool.false_and, Bool.false_eq_true, if_false]
  rcases hr : resize_image env fs p (destPath o p) o with ⟨tr, fs2, r⟩
  rw [hr] at herr hfs
  simp only at herr hfs
  subst herr; subst hfs
  rfl

theorem runWorker_fs_shape (env : Env) (o : ResizeOptions) (fs : FS) (p : Path) :
    (runWorker env o fs p).2.1 = fs ∨
      ∃ b, (runWorker env o fs p).2.1 = fs.write (destPath o p) b := by
  unfold runWorker
  dsimp only
  split
  · exact Or.inl rfl
  · rcases hr : resize_image env fs p (destPath o p) o with ⟨tr, fs2, r⟩
    have := resize_image_fs_shape env o fs p (destPath o p)
    rw [hr] at this
    simp only at this
    cases r <;> simpa using this

theorem runWorker_fs_strict (env : Env) (o : ResizeOptions) (fs : FS) (p : Path)
    (how : o.overwrite = false) :
    (runWorker env o fs p).2.1 = fs ∨
      (fs.pathExists (destPath o p) = false ∧
        ∃ b, (runWorker env o fs p).2.1 = fs.write (destPath o p) b) := by
  cases hex : fs.pathExists (destPath o p) with
  | true => rw [runWorker_skip env o fs p hex how]; exact Or.inl rfl
  | false =>
    rcases runWorker_fs_shape env o fs p with h | ⟨b, h⟩
    · exact Or.inl h
    · exact Or.inr ⟨rfl, b, h⟩

theorem runWorker_file (env : Env) (o : ResizeOptions) (fs : FS) (p : Path) :
    (runWorker env o fs p).2.2.file = p ∧
      (runWorker env o fs p).2.2.output_file = some (destPath o p) := by
  unfold runWorker
  dsimp only
  split
  · exact ⟨rfl, rfl⟩
  · rcases hr : resize_image env fs p (destPath o p) o with ⟨tr, fs2, r⟩
    cases r <;> exact ⟨rfl, rfl⟩

theorem runWorker_status (env : Env) (o : ResizeOptions) (fs : FS) (p : Path) :
    (runWorker env o fs p).2.2.status = "skipped" ∨
      (runWorker env o fs p).2.2.status = "success" ∨
      (runWorker env o fs p).2.2.status = "error" := by
  unfold runWorker
  dsimp only
  split
  · exact Or.inl rfl
  · rcases hr : resize_image env fs p (destPath o p) o with ⟨tr, fs2, r⟩
    cases r
    · exact Or.inr (Or.inr rfl)
    · exact Or.inr (Or.inl rfl)

theorem runWorker_success_exists (env : Env) (o : ResizeOptions) (fs : FS)
    (p : Path) (h : (runWorker env o fs p).2.2.status = "success") :
    (runWorker env o fs p).2.1.pathExists (destPath o p) = true := by
  by_cases hex : fs.pathExists (destPath o p) = true
  · cases how : o.overwrite with
    | false =>
      rw [runWorker_skip env o fs p hex how] at h
      have hcl : ("skipped" : String) = "success" := h
      exact absurd hcl (by decide)
    | true =>
      rcases runWorker_fs_shape env o fs p with hfs | ⟨b, hfs⟩
      · rw [hfs]; exact hex
      · rw [hfs]; exact FS.pathExists_write_self fs (destPath o p) b
  · have hex' : fs.pathExists (destPath o p) = false := by
      cases hv : fs.pathExists (destPath o p) with
      | false => rfl
      | true => exact absurd hv hex
    rcases hr : (resize_image env fs p (destPath o p) o).2.2 with e | u
    · rw [runWorker_go_err env o fs p e hex' hr] at h
      have hcl : ("error" : String) = "success" := h
      exact absurd hcl (by decide)
    · cases u
      rw [runWorker_go_ok env o fs p hex' hr] at h ⊢
      rcases resize_image_ok_fs env o fs p (destPath o p) hr with ⟨b, hb⟩
      simp only [hb]
      exact FS.pathExists_write_self fs (destPath o p) b

/-! ## Per-entry lemmas -/

theorem processEntry_eligible (env : Env) (o : ResizeOptions) (fs : FS) (p : Path)
    (h : isEligible p = true) :
    processEntry env o fs p = runWorker env o fs p := by
  simp [processEntry, h]

theorem processEntry_ineligible (env : Env) (o : ResizeOptions) (fs : FS) (p : Path)
    (h : isEligible p = false) :
    processEntry env o fs p = ([], fs, unsupportedOutcome p) := by
  simp [processEntry, h]

theorem processEntry_fs_shape (env : Env) (o : ResizeOptions) (fs : FS) (p : Path) :
    (processEntry env o fs p).2.1 = fs ∨
      ∃ b, (processEntry env o fs p).2.1 = fs.write (destPath o p) b := by
  cases h : isEligible p with
  | false => rw [processEntry_ineligible env o fs p h]; exact Or.inl rfl
  | true => rw [processEntry_eligible env o fs p h]; exact runWorker_fs_shape env o fs p

theorem processEntry_fs_strict (env : Env) (o : ResizeOptions) (fs : FS) (p : Path)
    (how : o.overwrite = false) :
    (processEntry env o fs p).2.1 = fs ∨
      (fs.pathExists (destPath o p) = false ∧
        ∃ b, (processEntry env o fs p).2.1 = fs.write (destPath o p) b) := by
  cases h : isEligible p with
  | false => rw [processEntry_ineligible env o fs p h]; exact Or.inl rfl
  | true => rw [processEntry_eligible env o fs p h]; exact runWorker_fs_strict env o fs p how

theorem processEntry_file (env : Env) (o : ResizeOptions) (fs : FS) (p : Path) :
    (processEntry env o fs p).2.2.file = p := by
  cases h : isEligible p with
  | false => rw [processEntry_ineligible env o fs p h]; rfl
  | true => rw [processEntry_eligible env o fs p h]; exact (runWorker_file env o fs p).1

theorem processEntry_status_iff (env : Env) (o : ResizeOptions) (fs : FS) (p : Path) :
    (processEntry env o fs p).2.2.status = "unsupported_format" ↔
      isEligible p = false := by
  cases h : isEligible p with
  | false =>
    rw [processEntry_ineligible env o fs p h]
    exact ⟨fun _ => rfl, fun _ => rfl⟩
  | true =>
    rw [processEntry_eligible env o fs p h]
    constructor
    · intro hs
      rcases runWorker_status env o fs p with h1 | h1 | h1 <;>
        · rw [h1] at hs
          exact absurd hs (by decide)
    · intro hc; cases hc

theorem processEntry_status_mem (env : Env) (o : ResizeOptions) (fs : FS) (p : Path) :
    (processEntry env o fs p).2.2.status = "success" ∨
      (processEntry env o fs p).2.2.status = "skipped" ∨
      (processEntry env o fs p).2.2.status = "error" ∨
      (processEntry env o fs p).2.2.status = "unsupported_format" := by
  cases h : isEligible p with
  | false => rw [processEntry_ineligible env o fs p h]; exact Or.inr (Or.inr (Or.inr rfl))
  | true =>
    rw [processEntry_eligible env o fs p h]
    rcases runWorker_status env o fs p with h1 | h1 | h1
    · exact Or.inr (Or.inl h1)
    · exact Or.inl h1
    · exact Or.inr (Or.inr (Or.inl h1))

theorem processEntry_success_exists (env : Env) (o : ResizeOptions) (fs : FS)
    (p : Path) (h : (processEntry env o fs p).2.2.status = "success") :
    (processEntry env o fs p).2.1.pathExists (destPath o p) = true := by
  cases he : isEligible p with
  | false =>
    rw [processEntry_ineligible env o fs p he] at h
    have hcl : ("unsupported_format" : String) = "success" := h
    exact absurd hcl (by decide)
  | true =>
    rw [processEntry_eligible env o fs p he] at h ⊢
    exact runWorker_success_exists env o fs p h

theorem processEntry_exists_mono (env : Env) (o : ResizeOptions) (fs : FS)
    (p q : Path) (h : fs.pathExists q = true) :
    (processEntry env o fs p).2.1.pathExists q = true := by
  rcases processEntry_fs_shape env o fs p with hfs | ⟨b, hfs⟩
  · rw [hfs]; exact h
  · rw [hfs]; exact FS.pathExists_write_of fs (destPath o p) b q h

/-! ## Fold lemmas over the entry list -/

theorem processEntries_nil (env : Env) (o : ResizeOptions) (fs : FS) :
    processEntries env o fs [] = ([], fs, []) := rfl

theorem processEntries_cons (env : Env) (o : ResizeOptions) (fs : FS)
    (p : Path) (rest : List Path) :
    processEntries env o fs (p :: rest) =
      ((processEntry env o fs p).1 ++
          (processEntries env o (processEntry env o fs p).2.1 rest).1,
        (processEntries env o (processEntry env o fs p).2.1 rest).2.1,
        (processEntry env o fs p).2.2 ::
          (processEntries env o (processEntry env o fs p).2.1 rest).2.2) := rfl

theorem processEntries_length (env : Env) (o : ResizeOptions) :
    ∀ (es : List Path) (fs : FS),
      (processEntries env o fs es).2.2.length = es.length := by
  intro es
  induction es with
  | nil => intro fs; rfl
  | cons p rest ih =>
    intro fs
    rw [processEntries_cons]
    simp [ih]

theorem processEntries_exists_mono (env : Env) (o : ResizeOptions) :
    ∀ (es : List Path) (fs : FS) (q : Path), fs.pathExists q = true →
      (processEntries env o fs es).2.1.pathExists q = true := by
  intro es
  induction es with
  | nil => intro fs q h; exact h
  | cons p rest ih =>
    intro fs q h
    rw [processEntries_cons]
    exact ih (processEntry env o fs p).2.1 q (processEntry_exists_mono env o fs p q h)

theorem processEntries_lookup_preserved (env : Env) (o : ResizeOptions)
    (how : o.overwrite = false) :
    ∀ (es : List Path) (fs : FS) (q : Path), fs.pathExists q = true →
      (processEntries env o fs es).2.1.lookup q = fs.lookup q := by
  intro es
  induction es with
  | nil => intro fs q _; rfl
  | cons p rest ih =>
    intro fs q h
    rw [processEntries_cons]
    simp only
    rcases processEntry_fs_strict env o fs p how with hfs | ⟨hne, b, hfs⟩
    · rw [hfs] at *
      exact ih fs q h
    · have hq : q ≠ destPath o p := by
        intro hc; rw [hc] at h; rw [h] at hne; cases hne
      have hl : (processEntry env o fs p).2.1.lookup q = fs.lookup q := by
        rw [hfs, FS.lookup_write, if_neg hq]
      have hx : (processEntry env o fs p).2.1.pathExists q = true := by
        unfold FS.pathExists at *
        rw [hl]; exact h
      rw [ih (processEntry env o fs p).2.1 q hx, hl]

theorem processEntries_frame (env : Env) (o : ResizeOptions) :
    ∀ (es : List Path) (fs : FS) (q : Path),
      (∀ p ∈ es, destPath o p ≠ q) →
      (processEntries env o fs es).2.1.lookup q = fs.lookup q := by
  intro es
  induction es with
  | nil => intro fs q _; rfl
  | cons p rest ih =>
    intro fs q hq
    rw [processEntries_cons]
    simp only
    have hl : (processEntry env o fs p).2.1.lookup q = fs.lookup q := by
      rcases processEntry_fs_shape env o fs p with hfs | ⟨b, hfs⟩
      · rw [hfs]
      · rw [hfs, FS.lookup_write,
          if_neg (fun hc => hq p (List.mem_cons_self p rest) hc.symm)]
    rw [ih (processEntry env o fs p).2.1 q
      (fun r hr => hq r (List.mem_cons_of_mem p hr)), hl]

/-! ## Directory-listing lemmas -/

theorem dropLast_destPath (o : ResizeOptions) (p : Path) :
    (destPath o p).dropLast = o.output_folder := by
  simp [destPath]

theorem eq_parent_append_fileName (p : Path) (hne : p ≠ []) :
    p = p.dropLast ++ [fileName p] := by
  unfold fileName
  conv_lhs => rw [← List.dropLast_append_getLast hne]
  rw [List.getLastD_eq_getLast?, List.getLast?_eq_getLast p hne, Option.getD_some]

theorem lookupNode_isSome_of_mem {l : List (Path × Node)} {e : Path × Node}
    (h : e ∈ l) : (lookupNode l e.1).isSome = true := by
  induction l with
  | nil => cases h
  | cons f rest ih =>
    obtain ⟨k, v⟩ := f
    rw [lookupNode_cons]
    by_cases hk : k = e.1
    · rw [if_pos hk]; rfl
    · rw [if_neg hk]
      rcases List.mem_cons.mp h with rfl | hmem
      · exact absurd rfl hk
      · exact ih hmem

theorem children_facts (fs : FS) (d : Path) (p : Path) (h : p ∈ fs.children d) :
    fs.pathExists p = true ∧ p ≠ [] ∧ p.dropLast = d := by
  unfold FS.children at h
  have hf := List.of_mem_filter h
  have hm := List.mem_of_mem_filter h
  have hc : p ≠ [] ∧ p.dropLast = d := by simpa [childOf] using hf
  refine ⟨?_, hc⟩
  rcases List.mem_map.mp hm with ⟨e, hel, rfl⟩
  exact lookupNode_isSome_of_mem hel

theorem processEntries_children (env : Env) (o : ResizeOptions)
    (how : o.overwrite = false) (d : Path) :
    ∀ (es : List Path) (fs : FS),
      (∀ p ∈ es, fs.pathExists p = true ∧ p ≠ [] ∧ p.dropLast = d) →
      (processEntries env o fs es).2.1.children d = fs.children d := by
  intro es
  induction es with
  | nil => intro fs _; rfl
  | cons p rest ih =>
    intro fs hsrc
    rw [processEntries_cons]
    simp only
    obtain ⟨hp, hpne, hpd⟩ := hsrc p (List.mem_cons_self p rest)
    have hrest : ∀ r ∈ rest, (processEntry env o fs p).2.1.pathExists r = true ∧
        r ≠ [] ∧ r.dropLast = d := by
      intro r hr
      obtain ⟨h1, h2, h3⟩ := hsrc r (List.mem_cons_of_mem p hr)
      exact ⟨processEntry_exists_mono env o fs p r h1, h2, h3⟩
    rw [ih (processEntry env o fs p).2.1 hrest]
    rcases processEntry_fs_strict env o fs p how with hfs | ⟨hne, b, hfs⟩
    · rw [hfs]
    · rw [hfs]
      apply FS.children_write
      · cases hout : decide (o.output_folder = d) with
        | true =>
          exfalso
          have hod : o.output_folder = d := of_decide_eq_true hout
          have : destPath o p = p := by
            rw [destPath, hod, ← hpd]
            exact (eq_parent_append_fileName p hpne).symm
          rw [this] at hne
          rw [hp] at hne
          cases hne
        | false =>
          have hod : o.output_folder ≠ d := of_decide_eq_false hout
          unfold childOf
          simp [dropLast_destPath, hod]
      · exact hne

theorem processEntries_forall₂ (env : Env) (o : ResizeOptions) :
    ∀ (es : List Path) (fs : FS),
      List.Forall₂ (fun p oc => oc.file = p ∧
          (oc.status = "unsupported_format" ↔ isEligible p = false))
        es (processEntries env o fs es).2.2 := by
  intro es
  induction es with
  | nil => intro fs; exact List.Forall₂.nil
  | cons p rest ih =>
    intro fs
    rw [processEntries_cons]
    exact List.Forall₂.cons
      ⟨processEntry_file env o fs p, processEntry_status_iff env o fs p⟩
      (ih (processEntry env o fs p).2.1)

theorem processEntries_status_mem (env : Env) (o : ResizeOptions) :
    ∀ (es : List Path) (fs : FS) (oc : Outcome),
      oc ∈ (processEntries env o fs es).2.2 →
      oc.status = "success" ∨ oc.status = "skipped" ∨ oc.status = "error" ∨
        oc.status = "unsupported_format" := by
  intro es
  induction es with
  | nil => intro fs oc h; cases h
  | cons p rest ih =>
    intro fs oc h
    rw [processEntries_cons] at h
    rcases List.mem_cons.mp h with rfl | hmem
    · exact processEntry_status_mem env o fs p
    · exact ih (processEntry env o fs p).2.1 oc hmem

/-! ## Rerunning a batch over its own output -/

theorem processEntries_rerun (env : Env) (o : ResizeOptions)
    (how : o.overwrite = false) :
    ∀ (es : List Path) (fsA : FS),
      (∀ p ∈ es, fsA.pathExists p = true) →
      (processEntries env o (processEntries env o fsA es).2.1 es).2.1 =
          (processEntries env o fsA es).2.1 ∧
        List.Forall₂ (fun o1 o2 => o2.file = o1.file ∧
            (o1.status = "success" → o2.status = "skipped"))
          (processEntries env o fsA es).2.2
          (processEntries env o (processEntries env o fsA es).2.1 es).2.2 := by
  intro es
  induction es with
  | nil => intro fsA _; exact ⟨rfl, List.Forall₂.nil⟩
  | cons p rest ih =>
    intro fsA hsrc
    have hsrcp : fsA.pathExists p = true := hsrc p (List.mem_cons_self p rest)
    have hsrcrest : ∀ r ∈ rest, (processEntry env o fsA p).2.1.pathExists r = true :=
      fun r hr => processEntry_exists_mono env o fsA p r
        (hsrc r (List.mem_cons_of_mem p hr))
    -- the final state of the first run
    have key : ∀ fs1, fs1 = (processEntries env o (processEntry env o fsA p).2.1 rest).2.1 →
        (processEntry env o fs1 p).2.1 = fs1 ∧
          (processEntry env o fs1 p).2.2.file = (processEntry env o fsA p).2.2.file ∧
          ((processEntry env o fsA p).2.2.status = "success" →
            (processEntry env o fs1 p).2.2.status = "skipped") := by
      intro fs1 hfs1
      cases he : isEligible p with
      | false =>
        rw [processEntry_ineligible env o fs1 p he, processEntry_ineligible env o fsA p he]
        refine ⟨rfl, rfl, ?_⟩
        intro hs
        exact absurd (show ("unsupported_format" : String) = "success" from hs) (by decide)
      | true =>
        rw [processEntry_eligible env o fs1 p he, processEntry_eligible env o fsA p he]
        cases hd : fsA.pathExists (destPath o p) with
        | true =>
          -- run 1 skipped; destination still exists for run 2
          have hd1 : fs1.pathExists (destPath o p) = true := by
            rw [hfs1, processEntry_eligible env o fsA p he,
              runWorker_skip env o fsA p hd how]
            exact processEntries_exists_mono env o rest fsA (destPath o p) hd
          rw [runWorker_skip env o fs1 p hd1 how, runWorker_skip env o fsA p hd how]
          refine ⟨rfl, rfl, ?_⟩
          intro hs
          exact absurd (show ("skipped" : String) = "success" from hs) (by decide)
        | false =>
          rcases hr1 : (resize_image env fsA p (destPath o p) o).2.2 with e | u
          · -- run 1 failed; run 2 fails identically (or skips)
            have hwa := runWorker_go_err env o fsA p e hd hr1
            cases hd1 : fs1.pathExists (destPath o p) with
            | true =>
              rw [runWorker_skip env o fs1 p hd1 how, hwa]
              refine ⟨rfl, rfl, ?_⟩
              intro hs
              exact absurd (show ("error" : String) = "success" from hs) (by decide)
            | false =>
              have hfsA : (processEntry env o fsA p).2.1 = fsA := by
                rw [processEntry_eligible env o fsA p he, hwa]
              have hlp : fs1.lookup p = fsA.lookup p := by
                rw [hfs1, hfsA]
                exact processEntries_lookup_preserved env o how rest fsA p hsrcp
              have hlo : fs1.lookup (destPath o p).dropLast =
                  fsA.lookup (destPath o p).dropLast := by
                rw [hfs1, hfsA, dropLast_destPath]
                exact processEntries_frame env o rest fsA o.output_folder
                  (fun r _ => destPath_ne_output_folder o r)
              have hld : fs1.lookup (destPath o p) = fsA.lookup (destPath o p) := by
                rw [pathExists_false_lookup fs1 (destPath o p) hd1,
                  pathExists_false_lookup fsA (destPath o p) hd]
              have hcongr := resize_image_congr env o fs1 fsA p (destPath o p)
                hlp hlo hld
              have hr2 : (resize_image env fs1 p (destPath o p) o).2.2 =
                  Except.error e := by rw [hcongr.2, hr1]
              rw [runWorker_go_err env o fs1 p e hd1 hr2, hwa]
              refine ⟨rfl, rfl, ?_⟩
              intro hs
              exact absurd (show ("error" : String) = "success" from hs) (by decide)
          · -- run 1 wrote the destination; run 2 skips it
            cases u
            have hwa := runWorker_go_ok env o fsA p hd hr1
            have hfsA : (processEntry env o fsA p).2.1 =
                (resize_image env fsA p (destPath o p) o).2.1 := by
              rw [processEntry_eligible env o fsA p he, hwa]
            rcases resize_image_ok_fs env o fsA p (destPath o p) hr1 with ⟨b, hb⟩
            have hdex : (processEntry env o fsA p).2.1.pathExists (destPath o p) = true := by
              rw [hfsA, hb]
              exact FS.pathExists_write_self fsA (destPath o p) b
            have hd1 : fs1.pathExists (destPath o p) = true := by
              rw [hfs1]
              exact processEntries_exists_mono env o rest _ (destPath o p) hdex
            rw [runWorker_skip env o fs1 p hd1 how, hwa]
            exact ⟨rfl, rfl, fun _ => rfl⟩
    have hkey := key (processEntries env o (processEntry env o fsA p).2.1 rest).2.1 rfl
    have hih := ih (processEntry env o fsA p).2.1 hsrcrest
    constructor
    · rw [processEntries_cons env o fsA p rest]
      simp only
      conv_lhs => rw [processEntries_cons]
      simp only
      rw [hkey.1]
      exact hih.1
    · rw [processEntries_cons env o fsA p rest]
      simp only
      conv_rhs => rw [processEntries_cons]
      simp only
      rw [hkey.1]
      exact List.Forall₂.cons ⟨hkey.2.1, hkey.2.2⟩ hih.2

/-! ## Coordinator equations -/

theorem process_images_not_found (env : Env) (fs : FS) (o : ResizeOptions)
    (h : fs.pathExists o.input_folder = false) :
    process_images env fs o =
      ([], fs, Except.error ("Input folder does not exist: " ++
        pathString o.input_folder)) := by
  simp [process_images, h]

theorem process_images_dir (env : Env) (fs : FS) (o : ResizeOptions)
    (hdir : fs.lookup o.input_folder = some Node.dir) :
    process_images env fs o =
      ((processEntries env o fs (fs.children o.input_folder)).1,
        (processEntries env o fs (fs.children o.input_folder)).2.1,
        Except.ok (Response.mk o.output_folder
          (processEntries env o fs (fs.children o.input_folder)).2.2)) := by
  have hex : fs.pathExists o.input_folder = true := by
    unfold FS.pathExists
    rw [hdir]
    rfl
  unfold process_images readDir
  rw [hex, hdir]
  rfl

theorem process_images_file (env : Env) (fs : FS) (o : ResizeOptions) (b : Bytes)
    (hfl : fs.lookup o.input_folder = some (Node.file b)) :
    process_images env fs o =
      ([], fs, Except.error ("Error reading directory: " ++ "not a directory")) := by
  have hex : fs.pathExists o.input_folder = true := by
    unfold FS.pathExists
    rw [hfl]
    rfl
  unfold process_images readDir
  rw [hex, hfl]
  rfl

/-! ## Rounding helpers -/

theorem roundHalfUp_eq_of (x : ℚ) (z : ℤ) (h1 : (z : ℚ) ≤ x + 1 / 2)
    (h2 : x + 1 / 2 < z + 1) : roundHalfUp x = z := by
  unfold roundHalfUp
  exact Int.floor_eq_iff.mpr ⟨h1, h2⟩

theorem toU32_of_le (z : ℤ) (h : z.toNat ≤ u32Max) : toU32 z = z.toNat := by
  unfold toU32
  exact min_eq_left h

theorem roundEven_down (x : ℚ) (n : ℤ) (h1 : (n : ℚ) ≤ x)
    (h2 : x < (n : ℚ) + 1 / 2) : roundEven x = n := by
  have hf : ⌊x⌋ = n := Int.floor_eq_iff.mpr ⟨h1, by linarith⟩
  unfold roundEven
  rw [hf, if_pos (by linarith)]

theorem roundEven_up (x : ℚ) (n : ℤ) (h1 : (n : ℚ) + 1 / 2 < x)
    (h2 : x < (n : ℚ) + 1) : roundEven x = n + 1 := by
  have hf : ⌊x⌋ = n := Int.floor_eq_iff.mpr ⟨by linarith, h2⟩
  unfold roundEven
  rw [hf, if_neg (by linarith), if_pos (by linarith)]

theorem int_log_eq_of (x : ℚ) (e : ℤ) (h0 : 0 < x) (h1 : (2 : ℚ) ^ e ≤ x)
    (h2 : x < (2 : ℚ) ^ (e + 1)) : Int.log 2 x = e := by
  have hle : e ≤ Int.log 2 x := by
    rw [← Int.zpow_le_iff_le_log one_lt_two h0]
    exact_mod_cast h1
  have hlt : Int.log 2 x < e + 1 := by
    rw [← Int.lt_zpow_iff_log_lt one_lt_two h0]
    exact_mod_cast h2
  omega

theorem fl_eq (x : ℚ) (e : ℤ) (h0 : 0 < x) (h1 : (2 : ℚ) ^ e ≤ x)
    (h2 : x < (2 : ℚ) ^ (e + 1)) :
    fl x = (roundEven (x * 2 ^ (52 - e)) : ℚ) * 2 ^ (e - 52) := by
  unfold fl
  rw [if_neg h0.ne', int_log_eq_of x e h0 h1 h2]

/-- The `f64` evaluation of `49/6*15`: the quotient rounds down to
`49/6 - 1/(3*2^49)`, the product then lands `3/(8*2^46)` below `122.5`,
so strictly below the exact half — where exact arithmetic gives `122.5`
on the nose. -/
theorem f64DivMul_49_15_6 : f64DivMul 49 15 6 =
    8620171161763839 / 70368744177664 := by
  have hq : fl ((49 : ℚ) / 6) = 4597424619607381 / 562949953421312 := by
    rw [fl_eq ((49 : ℚ) / 6) 3 (by norm_num) (by norm_num) (by norm_num),
      show ((49 : ℚ) / 6 * 2 ^ ((52 : ℤ) - 3)) = 13792273858822144 / 3 by norm_num,
      roundEven_down (13792273858822144 / 3) 4597424619607381
        (by norm_num) (by norm_num)]
    norm_num
  have hp : fl ((4597424619607381 / 562949953421312 : ℚ) * 15) =
      8620171161763839 / 70368744177664 := by
    rw [show ((4597424619607381 / 562949953421312 : ℚ) * 15) =
        68961369294110715 / 562949953421312 by norm_num,
      fl_eq (68961369294110715 / 562949953421312 : ℚ) 6
        (by norm_num) (by norm_num) (by norm_num),
      show ((68961369294110715 / 562949953421312 : ℚ) * 2 ^ ((52 : ℤ) - 6)) =
        68961369294110715 / 8 by norm_num,
      roundEven_down (68961369294110715 / 8) 8620171161763839
        (by norm_num) (by norm_num)]
    norm_num
  unfold f64DivMul
  rw [show (((49 : ℕ) : ℚ) / ((6 : ℕ) : ℚ)) = (49 : ℚ) / 6 by norm_num, hq,
    show ((4597424619607381 / 562949953421312 : ℚ) * ((15 : ℕ) : ℚ)) =
      (4597424619607381 / 562949953421312 : ℚ) * 15 by norm_num]
  exact hp

/-- The `f64` evaluation of `200/1000*500`: the quotient rounds up to
the nearest double above `1/5`, and the product then rounds back down to
exactly `100`. -/
theorem f64DivMul_200_500_1000 : f64DivMul 200 500 1000 = 100 := by
  have hq : fl ((1 : ℚ) / 5) = 3602879701896397 / 18014398509481984 := by
    rw [fl_eq ((1 : ℚ) / 5) (-3) (by norm_num) (by norm_num) (by norm_num),
      show ((1 : ℚ) / 5 * 2 ^ ((52 : ℤ) - -3)) = 36028797018963968 / 5 by norm_num,
      roundEven_up (36028797018963968 / 5) 7205759403792793
        (by norm_num) (by norm_num)]
    norm_num
  have hp : fl ((3602879701896397 / 18014398509481984 : ℚ) * 500) = 100 := by
    rw [show ((3602879701896397 / 18014398509481984 : ℚ) * 500) =
        450359962737049625 / 4503599627370496 by norm_num,
      fl_eq (450359962737049625 / 4503599627370496 : ℚ) 6
        (by norm_num) (by norm_num) (by norm_num),
      show ((450359962737049625 / 4503599627370496 : ℚ) * 2 ^ ((52 : ℤ) - 6)) =
        450359962737049625 / 64 by norm_num,
      roundEven_down (450359962737049625 / 64) 7036874417766400
        (by norm_num) (by norm_num)]
    norm_num
  unfold f64DivMul
  rw [show (((200 : ℕ) : ℚ) / ((1000 : ℕ) : ℚ)) = (1 : ℚ) / 5 by norm_num, hq,
    show ((3602879701896397 / 18014398509481984 : ℚ) * ((500 : ℕ) : ℚ)) =
      (3602879701896397 / 18014398509481984 : ℚ) * 500 by norm_num]
  exact hp

/-- The `f64` evaluation of `50/100*333` is exact: `1/2` and `166.5` are
both representable doubles. -/
theorem f64DivMul_50_333_100 : f64DivMul 50 333 100 = 333 / 2 := by
  have hq : fl ((1 : ℚ) / 2) = 1 / 2 := by
    rw [fl_eq ((1 : ℚ) / 2) (-1) (by norm_num) (by norm_num) (by norm_num),
      show ((1 : ℚ) / 2 * 2 ^ ((52 : ℤ) - -1)) = (4503599627370496 : ℚ) by norm_num,
      roundEven_down (4503599627370496 : ℚ) 4503599627370496
        (by norm_num) (by norm_num)]
    norm_num
  have hp : fl ((1 / 2 : ℚ) * 333) = 333 / 2 := by
    rw [show ((1 / 2 : ℚ) * 333) = (333 / 2 : ℚ) by norm_num,
      fl_eq (333 / 2 : ℚ) 7 (by norm_num) (by norm_num) (by norm_num),
      show ((333 / 2 : ℚ) * 2 ^ ((52 : ℤ) - 7)) = (5858197952790528 : ℚ) by norm_num,
      roundEven_down (5858197952790528 : ℚ) 5858197952790528
        (by norm_num) (by norm_num)]
    norm_num
  unfold f64DivMul
  rw [show (((50 : ℕ) : ℚ) / ((100 : ℕ) : ℚ)) = (1 : ℚ) / 2 by norm_num, hq,
    show ((1 / 2 : ℚ) * ((333 : ℕ) : ℚ)) = (1 / 2 : ℚ) * 333 by norm_num]
  exact hp

/-! ## The claims -/

/-- C1: whenever `process_images` returns a report, the results list has
exactly one outcome per directory entry considered, in enumeration order:
the entry is the outcome's `file`, an entry failing the extension
allow-list gets exactly the `unsupported_format` outcome and an eligible
entry gets its worker's outcome (never `unsupported_format`), and the
outcome count equals eligible plus extension-filtered entries. -/
theorem C1_one_outcome_per_entry (env : Env) (fs : FS) (o : ResizeOptions)
    (resp : Response) (h : (process_images env fs o).2.2 = Except.ok resp) :
    ∃ entries, readDir fs o.input_folder = Except.ok entries ∧
      resp.results.length = entries.length ∧
      resp.results.length =
        (entries.filter (fun p => isEligible p)).length +
          (entries.filter (fun p => !isEligible p)).length ∧
      List.Forall₂ (fun p oc => oc.file = p ∧
          (oc.status = "unsupported_format" ↔ isEligible p = false))
        entries resp.results := by
  cases hex : fs.pathExists o.input_folder with
  | false =>
    rw [process_images_not_found env fs o hex] at h
    simp at h
  | true =>
    cases hl : fs.lookup o.input_folder with
    | none =>
      unfold FS.pathExists at hex
      rw [hl] at hex
      cases hex
    | some nd =>
      cases nd with
      | file b =>
        rw [process_images_file env fs o b hl] at h
        simp at h
      | dir =>
        rw [process_images_dir env fs o hl] at h
        simp only at h
        injection h with h'
        subst h'
        refine ⟨fs.children o.input_folder, ?_, ?_, ?_, ?_⟩
        · unfold readDir
          rw [hl]
        · exact processEntries_length env o (fs.children o.input_folder) fs
        · rw [processEntries_length env o (fs.children o.input_folder) fs]
          exact List.length_eq_length_filter_add (fun p => isEligible p)
        · exact processEntries_forall₂ env o (fs.children o.input_folder) fs

/-- Witness for C1 on the fixture batch: one eligible PNG and one
extension-filtered text file, two outcomes. -/
theorem C1_one_outcome_per_entry_witness :
    ∃ entries, readDir fsA optsA.input_folder = Except.ok entries ∧
      (Response.mk ["out"]
        [successOutcome ["in", "a.png"] ["out", "a.png"],
          unsupportedOutcome ["in", "b.txt"]]).results.length = entries.length ∧
      (Response.mk ["out"]
        [successOutcome ["in", "a.png"] ["out", "a.png"],
          unsupportedOutcome ["in", "b.txt"]]).results.length =
        (entries.filter (fun p => isEligible p)).length +
          (entries.filter (fun p => !isEligible p)).length ∧
      List.Forall₂ (fun p oc => oc.file = p ∧
          (oc.status = "unsupported_format" ↔ isEligible p = false))
        entries
        (Response.mk ["out"]
          [successOutcome ["in", "a.png"] ["out", "a.png"],
            unsupportedOutcome ["in", "b.txt"]]).results :=
  C1_one_outcome_per_entry envA fsA optsA
    (Response.mk ["out"]
      [successOutcome ["in", "a.png"] ["out", "a.png"],
        unsupportedOutcome ["in", "b.txt"]])
    (by decide)

/-- C2 counterexample: the claim's formula `round(width*origH/origW)` is
not what the code computes, because the two `f64` roundings can land the
intermediate strictly across a rounding boundary: for original 6x15 with
width 49 the `f64` evaluation of `49/6*15` is `122.49999999999999`
(strictly below the exact `122.5`), so the code computes height 122,
while round-half-away-from-zero of the exact `49*15/6 = 122.5` is 123. -/
theorem C2_aspect_rounding_counterexample :
    planDimensions
        { input_folder := ["in"], output_folder := ["out"], width := some 49,
          height := none, keep_aspect_ratio := true, overwrite := false }
        6 15 = Except.ok (49, 122) ∧
      roundHalfUp ((49 : ℚ) * 15 / 6) = 123 ∧
      (122 : ℕ) ≠ 123 := by
  refine ⟨?_, ?_, by norm_num⟩
  · have h1 : planDimensions
        { input_folder := ["in"], output_folder := ["out"], width := some 49,
          height := none, keep_aspect_ratio := true, overwrite := false }
        6 15 = Except.ok (49, toU32 (roundHalfUp (f64DivMul 49 15 6))) := rfl
    rw [h1, f64DivMul_49_15_6,
      roundHalfUp_eq_of (8620171161763839 / 70368744177664 : ℚ) 122
        (by norm_num) (by norm_num)]
    rfl
  · rw [show ((49 : ℚ) * 15 / 6) = (245 / 2 : ℚ) by norm_num]
    exact roundHalfUp_eq_of (245 / 2 : ℚ) 123 (by norm_num) (by norm_num)

/-- C2 (amended): with aspect preservation and a given width, the
computed height is round-half-away-from-zero of the double-precision
(IEEE-754 binary64) evaluation of `width/origWidth*origHeight` — the
division and the multiplication each rounded to nearest-even at 53 bits —
saturated at `u32::MAX` by the Rust `as u32` cast, and symmetrically for
a given height (original dimensions positive); this agrees with
`round(width*origHeight/origWidth)` whenever the `f64` evaluation is
exact, and in particular original 1000x500 with width 200 gives height
100, and original 333x100 with height 50 gives width
round(166.5) = 167. -/
theorem C2_aspect_rounding :
    (∀ (o : ResizeOptions) (w ow oh : Nat), o.keep_aspect_ratio = true →
        o.width = some w → 0 < ow →
        planDimensions o ow oh =
          Except.ok (w, toU32 (roundHalfUp (f64DivMul w oh ow)))) ∧
      (∀ (o : ResizeOptions) (h ow oh : Nat), o.keep_aspect_ratio = true →
        o.width = none → o.height = some h → 0 < oh →
        planDimensions o ow oh =
          Except.ok (toU32 (roundHalfUp (f64DivMul h ow oh)), h)) ∧
      planDimensions
        { input_folder := ["in"], output_folder := ["out"], width := some 200,
          height := none, keep_aspect_ratio := true, overwrite := false }
        1000 500 = Except.ok (200, 100) ∧
      planDimensions
        { input_folder := ["in"], output_folder := ["out"], width := none,
          height := some 50, keep_aspect_ratio := true, overwrite := false }
        333 100 = Except.ok (167, 50) := by
  refine ⟨?_, ?_, ?_, ?_⟩
  · intro o w ow oh hka hw _
    simp only [planDimensions, hka, hw, if_true]
  · intro o h ow oh hka hw hh _
    simp only [planDimensions, hka, hw, hh, if_true]
  · have h1 : planDimensions
        { input_folder := ["in"], output_folder := ["out"], width := some 200,
          height := none, keep_aspect_ratio := true, overwrite := false }
        1000 500 =
        Except.ok (200, toU32 (roundHalfUp (f64DivMul 200 500 1000))) := rfl
    rw [h1, f64DivMul_200_500_1000,
      roundHalfUp_eq_of (100 : ℚ) 100 (by norm_num) (by norm_num)]
    rfl
  · have h1 : planDimensions
        { input_folder := ["in"], output_folder := ["out"], width := none,
          height := some 50, keep_aspect_ratio := true, overwrite := false }
        333 100 =
        Except.ok (toU32 (roundHalfUp (f64DivMul 50 333 100)), 50) := rfl
    rw [h1, f64DivMul_50_333_100,
      roundHalfUp_eq_of ((333 : ℚ) / 2) 167 (by norm_num) (by norm_num)]
    rfl

/-- Witness for C2 at 1000x500, width 200. -/
theorem C2_aspect_rounding_witness :
    planDimensions
        { input_folder := ["in"], output_folder := ["out"], width := some 200,
          height := none, keep_aspect_ratio := true, overwrite := false }
        1000 500 = Except.ok (200, 100) :=
  C2_aspect_rounding.2.2.1

/-- C3 counterexample: with aspect preservation and no dimensions, on a
file that sniffs and decodes fine, the per-file operation does fail with
the missing-dimension error, but the decode effect IS in the trace before
the failure — `image::open` runs at lib.rs line 41, before the dimension
check at lines 44-59 — refuting the claim's "no image decode is
attempted before that failure". -/
theorem C3_missing_dimension_counterexample :
    (resize_image envA fsA ["in", "a.png"] ["out", "a.png"] optsK).2.2 =
        Except.error "Width or height required when preserving aspect ratio." ∧
      Effect.decoded ["in", "a.png"] ∈
        (resize_image envA fsA ["in", "a.png"] ["out", "a.png"] optsK).1 := by
  decide

/-- C3 (amended): when aspect preservation is requested with neither
dimension, every file that passes sniffing and decodes successfully fails
with the missing-dimension error — but the decode is attempted before
that failure (its effect precedes the error), contrary to the original
claim's "no decode attempted". -/
theorem C3_missing_dimension (env : Env) (fs : FS) (ip op : Path)
    (o : ResizeOptions) (bs : Bytes) (m : String) (img : Image)
    (hka : o.keep_aspect_ratio = true) (hw : o.width = none)
    (hh : o.height = none)
    (hf : fs.lookup ip = some (Node.file bs))
    (hs : env.sniff bs = some m) (hm : allowed_mimes.contains m = true)
    (hd : env.decode bs = some img) :
    resize_image env fs ip op o =
      ([Effect.sniffed ip, Effect.decoded ip], fs,
        Except.error "Width or height required when preserving aspect ratio.") := by
  have hplan : planDimensions o img.width img.height =
      Except.error "Width or height required when preserving aspect ratio." := by
    simp [planDimensions, hka, hw, hh]
  unfold resize_image resizeStep
  simp only [hf, hs, hm, hd, hplan]
  simp

/-- Witness for C3 on the fixture PNG. -/
theorem C3_missing_dimension_witness :
    resize_image envA fsA ["in", "a.png"] ["out", "a.png"] optsK =
      ([Effect.sniffed ["in", "a.png"], Effect.decoded ["in", "a.png"]], fsA,
        Except.error "Width or height required when preserving aspect ratio.") :=
  C3_missing_dimension envA fsA ["in", "a.png"] ["out", "a.png"] optsK
    [1] "image/png" ⟨4, 2, [9]⟩ rfl rfl rfl (by decide) (by decide) (by decide)
    (by decide)

/-- C4 counterexample: a spoofed `.png` that sniffs as PDF is recorded in
the report with status `"error"` (carrying the unsupported-format
message), not with status `"unsupported_format"`: the worker folds the
sniffing rejection into the generic `Err` branch of lib.rs lines 133-136. -/
theorem C4_sniff_rejection_counterexample :
    (process_images envA fsB optsA).2.2 =
        Except.ok (Response.mk ["out"]
          [errorOutcome ["in", "a.png"] ["out", "a.png"]
            "Unsupported format: in/a.png (detected as application/pdf)"]) ∧
      (errorOutcome ["in", "a.png"] ["out", "a.png"]
        "Unsupported format: in/a.png (detected as application/pdf)").status =
        "error" ∧
      ("error" : String) ≠ "unsupported_format" := by
  refine ⟨by decide, rfl, by decide⟩

/-- C4 (amended): a file that passes the extension allow-list (and whose
destination is free) but whose sniffed content type is not an allowed
image MIME is recorded with the generic status `"error"` carrying the
`Unsupported format` message — distinct from extension-filtered entries,
whose status is `"unsupported_format"` — and sniffing precedes decoding:
the trace holds only the sniff effect and no decode is attempted. -/
theorem C4_sniff_rejection (env : Env) (fs : FS) (o : ResizeOptions)
    (p : Path) (bs : Bytes) (m : String)
    (hel : isEligible p = true)
    (hnex : fs.pathExists (destPath o p) = false)
    (hf : fs.lookup p = some (Node.file bs))
    (hs : env.sniff bs = some m)
    (hm : allowed_mimes.contains m = false) :
    processEntry env o fs p =
        ([Effect.sniffed p], fs,
          errorOutcome p (destPath o p)
            ("Unsupported format: " ++ pathString p ++
              " (detected as " ++ m ++ ")")) ∧
      (processEntry env o fs p).2.2.status = "error" ∧
      (unsupportedOutcome p).status = "unsupported_format" ∧
      Effect.decoded p ∉ (processEntry env o fs p).1 := by
  have herr : (resize_image env fs p (destPath o p) o).2.2 =
      Except.error ("Unsupported format: " ++ pathString p ++
        " (detected as " ++ m ++ ")") := by
    unfold resize_image resizeStep
    simp only [hf, hs, hm]
    simp
  have htr : (resize_image env fs p (destPath o p) o).1 =
      [Effect.sniffed p] := by
    unfold resize_image resizeStep
    simp only [hf, hs, hm]
    simp
  have hw := runWorker_go_err env o fs p
    ("Unsupported format: " ++ pathString p ++ " (detected as " ++ m ++ ")")
    hnex herr
  have hpe : processEntry env o fs p =
      ([Effect.sniffed p], fs,
        errorOutcome p (destPath o p)
          ("Unsupported format: " ++ pathString p ++
            " (detected as " ++ m ++ ")")) := by
    rw [processEntry_eligible env o fs p hel, hw, htr]
  refine ⟨hpe, ?_, rfl, ?_⟩
  · rw [hpe]
    rfl
  · rw [hpe]
    simp

/-- Witness for C4 on the spoofed PNG fixture. -/
theorem C4_sniff_rejection_witness :
    processEntry envA optsA fsB ["in", "a.png"] =
        ([Effect.sniffed ["in", "a.png"]], fsB,
          errorOutcome ["in", "a.png"] (destPath optsA ["in", "a.png"])
            ("Unsupported format: " ++ pathString ["in", "a.png"] ++
              " (detected as " ++ "application/pdf" ++ ")")) ∧
      (processEntry envA optsA fsB ["in", "a.png"]).2.2.status = "error" ∧
      (unsupportedOutcome ["in", "a.png"]).status = "unsupported_format" ∧
      Effect.decoded ["in", "a.png"] ∉ (processEntry envA optsA fsB ["in", "a.png"]).1 :=
  C4_sniff_rejection envA fsB optsA ["in", "a.png"] [2] "application/pdf"
    (by decide) (by decide) (by decide) (by decide) (by decide)

/-- C5: when the input folder does not exist, `process_images` fails with
the source-not-found error before enumerating: no effect is performed, the
filesystem is untouched, and no outcome is produced. -/
theorem C5_source_not_found (env : Env) (fs : FS) (o : ResizeOptions)
    (h : fs.pathExists o.input_folder = false) :
    process_images env fs o =
      ([], fs, Except.error ("Input folder does not exist: " ++
        pathString o.input_folder)) :=
  process_images_not_found env fs o h

/-- Witness for C5 on an empty filesystem. -/
theorem C5_source_not_found_witness :
    process_images envA (FS.mk []) optsA =
      ([], FS.mk [], Except.error ("Input folder does not exist: " ++
        pathString optsA.input_folder)) :=
  C5_source_not_found envA (FS.mk []) optsA (by decide)

/-- C6 counterexample: the directory-existence precheck is not the only
whole-operation failure: when the input path exists but is a regular
file, the precheck passes and `process_images` still returns an error —
the directory-read error, not the source-not-found one. -/
theorem C6_isolation_counterexample :
    (FS.mk [(["in"], Node.file [0])]).pathExists optsA.input_folder = true ∧
      (process_images envA (FS.mk [(["in"], Node.file [0])]) optsA).2.2 =
        Except.error ("Error reading directory: " ++ "not a directory") ∧
      ("Error reading directory: " ++ "not a directory") ≠
        ("Input folder does not exist: " ++ pathString optsA.input_folder) := by
  refine ⟨by decide, by decide, by decide⟩

/-- C6 (amended): per-file failures are caught at the worker boundary and
never abort the batch — whenever the input path is an existing directory
the batch returns a report with one outcome per entry, whatever the
workers hit — but besides the directory-existence precheck, the
directory-read step can also fail the whole operation, namely when the
input path exists and is not a directory. -/
theorem C6_isolation (env : Env) (fs : FS) (o : ResizeOptions) :
    (fs.lookup o.input_folder = some Node.dir →
        ∃ resp, (process_images env fs o).2.2 = Except.ok resp ∧
          resp.results.length = (fs.children o.input_folder).length) ∧
      (∀ b, fs.lookup o.input_folder = some (Node.file b) →
        (process_images env fs o).2.2 =
          Except.error ("Error reading directory: " ++ "not a directory")) ∧
      (fs.lookup o.input_folder = none →
        (process_images env fs o).2.2 =
          Except.error ("Input folder does not exist: " ++
            pathString o.input_folder)) := by
  refine ⟨?_, ?_, ?_⟩
  · intro hdir
    rw [process_images_dir env fs o hdir]
    exact ⟨Response.mk o.output_folder
      (processEntries env o fs (fs.children o.input_folder)).2.2, rfl,
      processEntries_length env o (fs.children o.input_folder) fs⟩
  · intro b hfl
    rw [process_images_file env fs o b hfl]
  · intro hnone
    rw [process_images_not_found env fs o (by unfold FS.pathExists; rw [hnone]; rfl)]

/-- Witness for C6 on the fixture batch: the input is a directory, so the
batch succeeds with one outcome per entry even though one file errors. -/
theorem C6_isolation_witness :
    ∃ resp, (process_images envA fsB optsA).2.2 = Except.ok resp ∧
      resp.results.length = (fsB.children optsA.input_folder).length :=
  (C6_isolation envA fsB optsA).1 (by decide)

/-- C7: with overwrite off, a task whose destination already exists
records exactly the `Skipped` outcome with an empty effect trace (no
sniffing, decoding or writing for that file) and leaves the filesystem
untouched; and the whole batch leaves every already-existing path's node
— in particular that destination file's bytes — unchanged. -/
theorem C7_skip_existing :
    (∀ (env : Env) (o : ResizeOptions) (fs : FS) (p : Path),
        o.overwrite = false → fs.pathExists (destPath o p) = true →
        runWorker env o fs p = ([], fs, skippedOutcome p (destPath o p))) ∧
      (∀ (env : Env) (o : ResizeOptions) (fs : FS) (q : Path),
        o.overwrite = false → fs.pathExists q = true →
        (process_images env fs o).2.1.lookup q = fs.lookup q) := by
  constructor
  · intro env o fs p how hex
    exact runWorker_skip env o fs p hex how
  · intro env o fs q how hq
    cases hl : fs.lookup o.input_folder with
    | none =>
      rw [process_images_not_found env fs o (by unfold FS.pathExists; rw [hl]; rfl)]
    | some nd =>
      cases nd with
      | file b => rw [process_images_file env fs o b hl]
      | dir =>
        rw [process_images_dir env fs o hl]
        exact processEntries_lookup_preserved env o how
          (fs.children o.input_folder) fs q hq

/-- Witness for C7 on the fixture whose destination `out/a.png` already
holds bytes `[7]`. -/
theorem C7_skip_existing_witness :
    runWorker envA optsA fsC ["in", "a.png"] =
        ([], fsC, skippedOutcome ["in", "a.png"] (destPath optsA ["in", "a.png"])) ∧
      (process_images envA fsC optsA).2.1.lookup ["out", "a.png"] =
        fsC.lookup ["out", "a.png"] :=
  ⟨C7_skip_existing.1 envA optsA fsC ["in", "a.png"] rfl (by decide),
    C7_skip_existing.2 envA optsA fsC ["out", "a.png"] rfl (by decide)⟩

/-- C8: in free-form (non-aspect) mode the planner succeeds, and any
absent dimension is passed through unchanged — an absent width plans the
original width and an absent height the original height, never zero. -/
theorem C8_freeform_passthrough (o : ResizeOptions) (ow oh : Nat)
    (hka : o.keep_aspect_ratio = false) :
    planDimensions o ow oh = Except.ok (o.width.getD ow, o.height.getD oh) ∧
      ∀ w h, planDimensions o ow oh = Except.ok (w, h) →
        (o.width = none → w = ow) ∧ (o.height = none → h = oh) := by
  have heq : planDimensions o ow oh =
      Except.ok (o.width.getD ow, o.height.getD oh) := by
    simp [planDimensions, hka]
  refine ⟨heq, ?_⟩
  intro w h hwh
  rw [heq] at hwh
  injection hwh with hp
  have hw' : o.width.getD ow = w := congrArg Prod.fst hp
  have hh' : o.height.getD oh = h := congrArg Prod.snd hp
  constructor
  · intro hwnone
    rw [hwnone, Option.getD_none] at hw'
    exact hw'.symm
  · intro hhnone
    rw [hhnone, Option.getD_none] at hh'
    exact hh'.symm

/-- Witness for C8: free-form with both dimensions absent passes 7x5
through unchanged. -/
theorem C8_freeform_passthrough_witness :
    planDimensions optsF 7 5 =
        Except.ok (optsF.width.getD 7, optsF.height.getD 5) ∧
      ∀ w h, planDimensions optsF 7 5 = Except.ok (w, h) →
        (optsF.width = none → w = 7) ∧ (optsF.height = none → h = 5) :=
  C8_freeform_passthrough optsF 7 5 rfl

/-- C9: with overwrite off, running the same batch twice over an existing
input directory is idempotent — the filesystem after the second run
equals the one after the first (so all destination bytes are unchanged),
and pointwise each outcome of the second run concerns the same file as
the first run's, with every file the first run succeeded on reported as
skipped by the second run. -/
theorem C9_rerun_idempotent (env : Env) (fs : FS) (o : ResizeOptions)
    (how : o.overwrite = false)
    (hdir : fs.lookup o.input_folder = some Node.dir) :
    (process_images env (process_images env fs o).2.1 o).2.1 =
        (process_images env fs o).2.1 ∧
      ∀ resp1 resp2,
        (process_images env fs o).2.2 = Except.ok resp1 →
        (process_images env (process_images env fs o).2.1 o).2.2 = Except.ok resp2 →
        List.Forall₂ (fun o1 o2 => o2.file = o1.file ∧
            (o1.status = "success" → o2.status = "skipped"))
          resp1.results resp2.results := by
  have hex : fs.pathExists o.input_folder = true := by
    unfold FS.pathExists
    rw [hdir]
    rfl
  have hsrc : ∀ p ∈ fs.children o.input_folder, fs.pathExists p = true :=
    fun p hp => (children_facts fs o.input_folder p hp).1
  have hlook1 : (processEntries env o fs (fs.children o.input_folder)).2.1.lookup
      o.input_folder = some Node.dir := by
    rw [processEntries_lookup_preserved env o how (fs.children o.input_folder)
      fs o.input_folder hex, hdir]
  have hch : (processEntries env o fs (fs.children o.input_folder)).2.1.children
      o.input_folder = fs.children o.input_folder :=
    processEntries_children env o how o.input_folder (fs.children o.input_folder)
      fs (fun p hp => children_facts fs o.input_folder p hp)
  have hre := processEntries_rerun env o how (fs.children o.input_folder) fs hsrc
  have hrun1 := process_images_dir env fs o hdir
  have hrun2 := process_images_dir env
    (processEntries env o fs (fs.children o.input_folder)).2.1 o hlook1
  rw [hch] at hrun2
  constructor
  · rw [hrun1]
    simp only
    rw [hrun2]
    simp only
    exact hre.1
  · intro resp1 resp2 h1 h2
    rw [hrun1] at h1 h2
    simp only at h1 h2
    rw [hrun2] at h2
    simp only at h2
    injection h1 with h1'
    injection h2 with h2'
    rw [← h1', ← h2']
    simp only
    exact hre.2

/-- Witness for C9 on the fixture batch: the PNG is written on the first
run and skipped on the second. -/
theorem C9_rerun_idempotent_witness :
    (process_images envA (process_images envA fsA optsA).2.1 optsA).2.1 =
        (process_images envA fsA optsA).2.1 ∧
      ∀ resp1 resp2,
        (process_images envA fsA optsA).2.2 = Except.ok resp1 →
        (process_images envA (process_images envA fsA optsA).2.1 optsA).2.2 =
          Except.ok resp2 →
        List.Forall₂ (fun o1 o2 => o2.file = o1.file ∧
            (o1.status = "success" → o2.status = "skipped"))
          resp1.results resp2.results :=
  C9_rerun_idempotent envA fsA optsA rfl (by decide)

/-- C10: every outcome of a returned report has one of the four statuses
`success`, `skipped`, `error`, `unsupported_format`; in particular the
`"unknown"` placeholder the worker initializes its result with never
survives into the shared collection. -/
theorem C10_status_vocabulary (env : Env) (fs : FS) (o : ResizeOptions)
    (resp : Response) (h : (process_images env fs o).2.2 = Except.ok resp) :
    ∀ oc ∈ resp.results,
      (oc.status = "success" ∨ oc.status = "skipped" ∨ oc.status = "error" ∨
          oc.status = "unsupported_format") ∧
        oc.status ≠ (initialResult oc.file (destPath o oc.file)).status := by
  cases hex : fs.pathExists o.input_folder with
  | false =>
    rw [process_images_not_found env fs o hex] at h
    simp at h
  | true =>
    cases hl : fs.lookup o.input_folder with
    | none =>
      unfold FS.pathExists at hex
      rw [hl] at hex
      cases hex
    | some nd =>
      cases nd with
      | file b =>
        rw [process_images_file env fs o b hl] at h
        simp at h
      | dir =>
        rw [process_images_dir env fs o hl] at h
        simp only at h
        injection h with h'
        subst h'
        intro oc hoc
        have hst := processEntries_status_mem env o (fs.children o.input_folder)
          fs oc hoc
        refine ⟨hst, ?_⟩
        show oc.status ≠ "unknown"
        rcases hst with h1 | h1 | h1 | h1 <;> (rw [h1]; decide)

/-- Witness for C10 at the fixture batch's first outcome. -/
theorem C10_status_vocabulary_witness :
    ((successOutcome ["in", "a.png"] ["out", "a.png"]).status = "success" ∨
        (successOutcome ["in", "a.png"] ["out", "a.png"]).status = "skipped" ∨
        (successOutcome ["in", "a.png"] ["out", "a.png"]).status = "error" ∨
        (successOutcome ["in", "a.png"] ["out", "a.png"]).status =
          "unsupported_format") ∧
      (successOutcome ["in", "a.png"] ["out", "a.png"]).status ≠
        (initialResult (successOutcome ["in", "a.png"] ["out", "a.png"]).file
          (destPath optsA
            (successOutcome ["in", "a.png"] ["out", "a.png"]).file)).status :=
  C10_status_vocabulary envA fsA optsA
    (Response.mk ["out"]
      [successOutcome ["in", "a.png"] ["out", "a.png"],
        unsupportedOutcome ["in", "b.txt"]])
    (by decide)
    (successOutcome ["in", "a.png"] ["out", "a.png"])
    (by decide)

end Swyfts
